import Mathlib

/-!
Shallow embedding of the AtalJudge test-case-manager core
(`app/services/` of the repository), covering:

* `GeneratorExecutorService` (generator_executor_service.py)
* `CodeExecutor` (code_executor.py)
* `ValidatorExecutorService` results as consumed by the supervisor
* `GeneratorAgentService` command handling (generator_agent_service.py)
* `ValidatorAgentService` brace balancing (validator_agent_service.py)
* `GeneratorValidatorSupervisionService.generate_test_cases`
  (generator_validator_supervision_service.py)

Strings are embedded as `List Char`.  External collaborators (the LLM
agents, the C++ compiler, the compiled generator/validator binaries, the
Python oracle subprocess and the wall clock) are uninterpreted functions
gathered in a `World` record; everything else is translated directly from
the Python source.
-/

namespace AtalJudge

/-- Strings of the embedded program, as lists of characters. -/
abbrev Str := List Char

/-- Python whitespace (`str.strip` / `str.split` default set). -/
def isPyWs (c : Char) : Bool :=
  c = ' ' || c = '\t' || c = '\n' || c = '\r' || c = '\x0b' || c = '\x0c'

/-- Python `str.strip()`: removes leading and trailing whitespace. -/
def pyStrip (s : Str) : Str :=
  ((s.dropWhile isPyWs).reverse.dropWhile isPyWs).reverse

/-- Python `str.rstrip('\n')`: removes trailing newline characters only. -/
def rstripNewlines (s : Str) : Str :=
  (s.reverse.dropWhile (fun c => c = '\n')).reverse

/-- Stripping of trailing whitespace only.  This follows the words of the
specification ("modulo stripping trailing whitespace"); the source's
`stdout.strip()` is `pyStrip`, which also removes leading whitespace. -/
def specTrailingOnlyStrip (s : Str) : Str :=
  (s.reverse.dropWhile isPyWs).reverse

/-- Python `s.endswith('\n')`. -/
def endsWithNl (s : Str) : Bool :=
  match s.reverse with
  | c :: _ => c = '\n'
  | [] => false

/-- The string ends with exactly one trailing newline: its last character
is a newline and the character before it (if any) is not. -/
def endsWithExactlyOneNewline (s : Str) : Bool :=
  decide (s.reverse.head? = some '\n') && decide (s.reverse.tail.head? ≠ some '\n')

/-- Auxiliary for `pySplit`: accumulates the current token (reversed). -/
def pySplitAux : Str → Str → List Str
  | [], acc => if acc = [] then [] else [acc.reverse]
  | c :: rest, acc =>
    if isPyWs c then
      if acc = [] then pySplitAux rest [] else acc.reverse :: pySplitAux rest []
    else pySplitAux rest (c :: acc)

/-- Python `str.split()` with no argument: split on runs of whitespace,
discarding empty tokens. -/
def pySplit (s : Str) : List Str := pySplitAux s []

/-- Python `str.split('\n')`: split at every newline, keeping empty parts. -/
def splitOnNl : Str → List Str
  | [] => [[]]
  | c :: rest =>
    if c = '\n' then [] :: splitOnNl rest
    else
      match splitOnNl rest with
      | h :: t => (c :: h) :: t
      | [] => [[c]]

/-- Concatenation of a list of strings. -/
def joinAll (l : List Str) : Str := l.foldr (fun a b => a ++ b) []

/-- Python `" ".join(parts)`. -/
def joinSpace : List Str → Str
  | [] => []
  | [x] => x
  | x :: xs => x ++ ' ' :: joinSpace xs

/-- Digit character of `n` for `n < 10` (the only arguments it receives). -/
def digitChar : Nat → Char
  | 0 => '0' | 1 => '1' | 2 => '2' | 3 => '3' | 4 => '4'
  | 5 => '5' | 6 => '6' | 7 => '7' | 8 => '8' | _ => '9'

/-- Decimal rendering of a natural number (Python `str(n)` / f-string). -/
def natToStrGo (n : Nat) (acc : Str) : Str :=
  if h : n < 10 then digitChar n :: acc
  else natToStrGo (n / 10) (digitChar (n % 10) :: acc)
  termination_by n
  decreasing_by
    exact Nat.div_lt_self (Nat.lt_of_lt_of_le (by decide) (Nat.le_of_not_lt h)) (by decide)

/-- Decimal rendering of a natural number. -/
def natToStr (n : Nat) : Str := natToStrGo n []

/-- Approximation of CPython `repr` on a string for the payloads the
service handles: single quotes around the text, with backslash, quote,
newline, carriage return and tab escaped.  The repr text only feeds the
structured feedback sent back to the agents. -/
def pyReprChar (c : Char) : Str :=
  if c = '\\' then ['\\', '\\']
  else if c = '\n' then ['\\', 'n']
  else if c = '\r' then ['\\', 'r']
  else if c = '\t' then ['\\', 't']
  else if c = '\x27' then ['\\', '\x27']
  else [c]

/-- Approximation of CPython `repr` on a string (see `pyReprChar`). -/
def pyRepr (s : Str) : Str :=
  '\x27' :: joinAll (s.map pyReprChar) ++ ['\x27']

/-!  ## Brace balancing

`GeneratorAgentService._balance_braces` (generator_agent_service.py,
lines 271-293) and `ValidatorAgentService._balance_braces`
(validator_agent_service.py, lines 259-281) implement the identical scan:
a closing brace with no matching opening brace so far is dropped, and at
the end of the text a newline followed by the missing closing braces is
appended.  (The `context` argument of the generator variant only feeds a
log message.) -/

/-- Scan of `_balance_braces`: `openCount` is the running `open_count`. -/
def balanceBracesGo : Nat → Str → Str
  | openCount, [] =>
    if 0 < openCount then '\n' :: List.replicate openCount '}' else []
  | openCount, c :: rest =>
    if c = '{' then c :: balanceBracesGo (openCount + 1) rest
    else if c = '}' then
      if openCount = 0 then balanceBracesGo 0 rest
      else c :: balanceBracesGo (openCount - 1) rest
    else c :: balanceBracesGo openCount rest

/-- `_balance_braces` of the generator and validator agents. -/
def balance_braces (code : Str) : Str := balanceBracesGo 0 code

/-- Occurrences of a character in a string. -/
def countChar (c : Char) (s : Str) : Nat :=
  s.foldr (fun x n => if x = c then n + 1 else n) 0

/-- `p` is a prefix of `s`. -/
def isPref (p s : Str) : Prop := ∃ t, p ++ t = s

/-- Python substring containment (`pat in s`). -/
def containsSub (pat : Str) : Str → Bool
  | [] => pat.isEmpty
  | c :: rest => pat.isPrefixOf (c :: rest) || containsSub pat rest

/-!  ## Generator runner (`GeneratorExecutorService`, generator_executor_service.py) -/

/-- Raw result of one child-process run (`subprocess.run` with
`capture_output=True, text=True`). -/
structure PyRun where
  returncode : Int
  stdout : Str
  stderr : Str
deriving DecidableEq, Repr

/-- Result record of `GeneratorExecutorService.generate_test_case`
(`success` and `input_data`; the error text and timing fields do not feed
any later control flow of the supervisor beyond truthiness of
`input_data`, which `Option` captures). -/
structure GenRunResult where
  success : Bool
  inputData : Option Str
deriving DecidableEq, Repr

/-- Command parsing of `generate_test_case` (lines 34-39): tokenize the
command and drop a leading `./gen` or `gen`. -/
def commandArgs (command : Str) : List Str :=
  match pySplit command with
  | [] => []
  | p :: rest => if p = "./gen".data ∨ p = "gen".data then rest else p :: rest

/-- Output processing of `generate_test_case` (lines 52-88): on exit
status 0, an output that is empty or whitespace-only is rejected;
otherwise the candidate is normalized to exactly one trailing newline
(`input_data.rstrip('\n') + '\n'`).  Any other exit status fails. -/
def processGenOutput (r : PyRun) : GenRunResult :=
  if r.returncode = 0 then
    if r.stdout = [] ∨ pyStrip r.stdout = [] then ⟨false, none⟩
    else ⟨true, some (rstripNewlines r.stdout ++ ['\n'])⟩
  else ⟨false, none⟩

/-- `GeneratorExecutorService.generate_test_case`: the child process is
the uninterpreted `exec`, consulted at the parsed argument list.  An
empty command raises `IndexError` at `cmd_parts[0]`, caught by the
enclosing `except` into a failure result. -/
def generate_test_case (exec : List Str → PyRun) (command : Str) : GenRunResult :=
  match pySplit command with
  | [] => ⟨false, none⟩
  | _ :: _ => processGenOutput (exec (commandArgs command))

/-- Loop of `generate_test_cases_batch` (lines 133-143): stop before a
command once `len(results)` has reached the cap. -/
def batchGo (exec : List Str → PyRun) (cap : Nat) : List Str → Nat → List GenRunResult
  | [], _ => []
  | cmd :: rest, produced =>
    if cap ≤ produced then []
    else generate_test_case exec cmd :: batchGo exec cap rest (produced + 1)

/-- `GeneratorExecutorService.generate_test_cases_batch`.  Python's
`target_count = max_cases or len(commands)` treats `0` as falsy. -/
def generate_test_cases_batch (exec : List Str → PyRun) (commands : List Str)
    (maxCases : Nat) : List GenRunResult :=
  let cap := if maxCases = 0 then commands.length else maxCases
  batchGo exec cap commands 0

/-- Value of a hexadecimal digit. -/
def hexDigitVal (c : Char) : Nat :=
  if '0' ≤ c ∧ c ≤ '9' then c.toNat - 48
  else if 'a' ≤ c ∧ c ≤ 'f' then c.toNat - 87
  else if 'A' ≤ c ∧ c ≤ 'F' then c.toNat - 55
  else 0

/-- `GeneratorExecutorService.calculate_seed` (lines 150-166): the MD5
digest is an external library routine, modelled by the `md5hex`
parameter; the seed is the integer value of the first 8 hex characters.
Note that no caller of `calculate_seed` exists anywhere in the
repository: `generate_test_case` invokes the generator with the
command's own tokens only. -/
def calculate_seed (md5hex : Str → Str) (command : Str) : Nat :=
  ((md5hex command).take 8).foldl (fun a c => a * 16 + hexDigitVal c) 0

/-!  ## Oracle runner (`CodeExecutor`, code_executor.py) -/

/-- `CodeExecutor.max_output_size` (10 MiB). -/
def maxOutputSize : Nat := 10 * 1024 * 1024

/-- Result record of `CodeExecutor.execute` (`success`, `output`,
`error`; timing omitted — never consumed by control flow). -/
structure ExecResult where
  success : Bool
  output : Option Str
  error : Option Str
deriving DecidableEq, Repr

/-- `CodeExecutor._run_subprocess` (lines 83-147) result mapping: oversize
stdout kills the child; a non-zero exit returns the stripped stderr (or a
default); success returns `stdout.strip()` — note the two-sided strip. -/
def run_subprocess (r : PyRun) : ExecResult :=
  if maxOutputSize < r.stdout.length then
    ⟨false, none, some ("Saída muito grande".data)⟩
  else if r.returncode ≠ 0 then
    ⟨false, none,
      some (if r.stderr ≠ [] then pyStrip r.stderr else "Erro desconhecido".data)⟩
  else ⟨true, some (pyStrip r.stdout), none⟩

/-- Python truthiness of `result["output"]`: a present, non-empty string. -/
def ExecResult.outputTruthy (r : ExecResult) : Bool :=
  match r.output with
  | some o => decide (o ≠ [])
  | none => false

/-!  ## Validator runner result (`ValidatorExecutorService`) -/

/-- Validation record as consumed by the supervisor
(`validate_test_cases_batch` entries: `valid`, `error_message`,
`error_line`).  The compiled validator binary is external, so the whole
record is world-supplied. -/
structure ValidationResult where
  valid : Bool
  errorMessage : Option Str
  errorLine : Option Nat
deriving DecidableEq, Repr

/-- `error_msg` of supervisor step 7 (lines 492-494):
`result["error_message"] or "Erro desconhecido"`, then a
`"Line {n}: "` prefix when `error_line` is truthy. -/
def errMsgStep7 (v : ValidationResult) : Str :=
  let m :=
    match v.errorMessage with
    | some m => if m = [] then "Erro desconhecido".data else m
    | none => "Erro desconhecido".data
  match v.errorLine with
  | some n => if n ≠ 0 then "Line ".data ++ natToStr n ++ ": ".data ++ m else m
  | none => m

/-- `error_msg` of supervisor step 5 (lines 425-428):
`validation.get("error_message", "Erro desconhecido")` — the key is
always present, so a `None` value flows into the f-string as `None` —
then the `"Line {n}: "` prefix when `error_line` is truthy. -/
def errMsgStep5 (v : ValidationResult) : Str :=
  let m :=
    match v.errorMessage with
    | some m => m
    | none => "None".data
  match v.errorLine with
  | some n => if n ≠ 0 then "Line ".data ++ natToStr n ++ ": ".data ++ m else m
  | none => m

/-!  ## Generator agent command handling (`GeneratorAgentService` and
`CodeExtractionService`) -/

/-- Split a string at the first occurrence of `pat`, returning the text
before it and the text after it. -/
def findSubSplit (pat : Str) : Str → Option (Str × Str)
  | [] => if pat = [] then some ([], []) else none
  | c :: rest =>
    if pat.isPrefixOf (c :: rest) then some ([], (c :: rest).drop pat.length)
    else
      match findSubSplit pat rest with
      | some (pre, post) => some (c :: pre, post)
      | none => none

/-- Search of `REGEX_COMMANDS` = `/\*\s*COMMANDS:(.*?)\*/` (DOTALL): the
leftmost `/*` followed by whitespace and `COMMANDS:` starts the match;
the lazy group captures up to the first subsequent `*/`. -/
def commandsBlockSearch : Str → Option Str
  | [] => none
  | c :: rest =>
    if ("/*".data).isPrefixOf (c :: rest) then
      let afterWs := ((c :: rest).drop 2).dropWhile isPyWs
      if ("COMMANDS:".data).isPrefixOf afterWs then
        match findSubSplit ("*/".data) (afterWs.drop 9) with
        | some (captured, _) => some captured
        | none => commandsBlockSearch rest
      else commandsBlockSearch rest
    else commandsBlockSearch rest

/-- Line filter shared by both attempts of `extract_commands`: keep the
stripped lines that start with `./gen`. -/
def genLines (text : Str) : List Str :=
  (splitOnNl text).filterMap (fun line =>
    let l := pyStrip line
    if ("./gen".data).isPrefixOf l then some l else none)

/-- `CodeExtractionService.extract_commands` (lines 174-208): commands
from the `/* COMMANDS: ... */` block; when that yields none, a scan of
all code lines starting with `./gen`. -/
def extract_commands (code : Str) : List Str :=
  let commands :=
    match commandsBlockSearch code with
    | some grp => genLines (pyStrip grp)
    | none => []
  if commands = [] then genLines code else commands

/-- Character class `[a-zA-Z_]` of `REGEX_PARAM_PATTERN`. -/
def isIdentStart (c : Char) : Bool := c.isAlpha || c = '_'

/-- Character class `[a-zA-Z0-9_]` of `REGEX_PARAM_PATTERN`. -/
def isIdentChar (c : Char) : Bool := c.isAlphanum || c = '_'

/-- Scanner state for `commandParams`: between matches, right after a
`-`, or inside a captured identifier (accumulated in reverse). -/
inductive ScanState
  | outside
  | sawDash
  | capturing (acc : Str)

/-- Left-to-right scan equivalent to `findall` of `REGEX_PARAM_PATTERN`:
a `-` followed by `[a-zA-Z_]` starts a capture, greedily extended over
`[a-zA-Z0-9_]`; matches do not overlap. -/
def commandParamsGo : ScanState → Str → List Str
  | .capturing acc, [] => [acc.reverse]
  | _, [] => []
  | .capturing acc, c :: rest =>
    if isIdentChar c then commandParamsGo (.capturing (c :: acc)) rest
    else if c = '-' then acc.reverse :: commandParamsGo .sawDash rest
    else acc.reverse :: commandParamsGo .outside rest
  | .sawDash, c :: rest =>
    if isIdentStart c then commandParamsGo (.capturing [c]) rest
    else if c = '-' then commandParamsGo .sawDash rest
    else commandParamsGo .outside rest
  | .outside, c :: rest =>
    if c = '-' then commandParamsGo .sawDash rest
    else commandParamsGo .outside rest

/-- `findall` of `REGEX_PARAM_PATTERN` = `-([a-zA-Z_][a-zA-Z0-9_]*)`:
the `-name` flags mentioned by a command. -/
def commandParams (cmd : Str) : List Str := commandParamsGo .outside cmd

/-- `findall` of `REGEX_OPT_PARAMS` = `opt\s*<[^>]+>\s*\(\s*"([^"]+)"`:
collects the quoted option names of `opt<...>("name")` declarations. -/
def optParamsSearch : Str → List Str
  | [] => []
  | c :: rest =>
    let tail := optParamsSearch rest
    if ("opt".data).isPrefixOf (c :: rest) then
      match ((c :: rest).drop 3).dropWhile isPyWs with
      | '<' :: b =>
        let inside := b.takeWhile (fun x => x ≠ '>')
        if inside = [] then tail
        else
          match b.dropWhile (fun x => x ≠ '>') with
          | '>' :: afterGt =>
            match afterGt.dropWhile isPyWs with
            | '(' :: afterParen =>
              match afterParen.dropWhile isPyWs with
              | '"' :: afterQuote =>
                let name := afterQuote.takeWhile (fun x => x ≠ '"')
                if name ≠ [] ∧ afterQuote.dropWhile (fun x => x ≠ '"') ≠ [] then
                  name :: tail
                else tail
              | _ => tail
            | _ => tail
          | _ => tail
      | _ => tail
    else tail

/-- `GeneratorAgentService._extract_opt_params` returns a Python `set`;
embedded as the duplicate-free list of found names. -/
def extract_opt_params (code : Str) : List Str :=
  (optParamsSearch code).dedup

/-- Lexicographic order on strings (Python `sorted` on `str`). -/
def strLe (a b : Str) : Bool :=
  match a, b with
  | [], _ => true
  | _ :: _, [] => false
  | c :: a, d :: b => if c = d then strLe a b else decide (c < d)

/-- Insertion into a `strLe`-sorted list. -/
def insertSorted (x : Str) : List Str → List Str
  | [] => [x]
  | y :: ys => if strLe x y then x :: y :: ys else y :: insertSorted x ys

/-- Ascending sort of a list of strings (Python `sorted`). -/
def sortStrs (l : List Str) : List Str := l.foldr insertSorted []

/-- Value chosen by `_generate_fallback_commands` for parameter `param`
at round `i` (generator_agent_service.py, lines 168-191). -/
def fallbackValue (param : Str) (i : Nat) : Nat :=
  let lower := param.map Char.toLower
  if lower = "t".data ∨ lower = "testcases".data ∨ lower = "tests".data then
    max 1 (min 5 (i % 5 + 1))
  else if containsSub ("min".data) lower then (if i < 10 then 1 else 10)
  else if containsSub ("max".data) lower then
    (if i < 5 then 10 else if i < 10 then 100 else if i < 15 then 1000 else 10000)
  else if containsSub ("sum".data) lower then (if i < 10 then 100 else 200000)
  else i % 20 + 1

/-- `GeneratorAgentService._generate_fallback_commands`: 20 commands over
the sorted option names. -/
def generate_fallback_commands (optParams : List Str) : List Str :=
  let sortedParams := sortStrs optParams
  (List.range 20).map (fun i =>
    joinSpace ("./gen".data ::
      sortedParams.map (fun p => '-' :: p ++ ' ' :: natToStr (fallbackValue p i))))

/-- `GeneratorAgentService._validate_commands` (lines 120-157): keep the
commands whose flags are all declared as options; when every command was
dropped and options exist, substitute the deterministic fallback
commands.  This method has no caller anywhere in the repository. -/
def validate_commands (code : Str) (commands : List Str) : List Str :=
  let optParams := extract_opt_params code
  let validCommands := commands.filter (fun cmd =>
    (commandParams cmd).all (fun p => optParams.contains p))
  if validCommands = [] ∧ optParams ≠ [] then generate_fallback_commands optParams
  else validCommands

/-- Command post-processing of
`GeneratorAgentService.generate_generator_program` (lines 63-70): the
commands extracted from the code, or the fallback commands when none are
found.  `_validate_commands` is not invoked. -/
def generatorProgramCommands (generatorCode : Str) : List Str :=
  let cmds := extract_commands generatorCode
  if cmds = [] then generate_fallback_commands (extract_opt_params generatorCode)
  else cmds

/-!  ## Supervisor (`GeneratorValidatorSupervisionService.generate_test_cases`) -/

/-- One worked example of the problem bundle. -/
structure Example where
  input : Str
  output : Str
deriving DecidableEq, Repr

/-- Compilation result of `CppCompilerService` (external toolchain):
`success`, `executable_path`, `error`. -/
structure CompileResult where
  success : Bool
  executablePath : Str
  error : Str
deriving DecidableEq, Repr

/-- A returned test case (`{"input": ..., "output": ...}`). -/
structure TestCase where
  input : Str
  output : Str
deriving DecidableEq, Repr

/-- Agent invocations, recorded to witness which agents a run consulted. -/
inductive AgentCall
  | genGenerate
  | genRevise
  | valGenerate
  | valRevise
deriving DecidableEq, Repr

/-- External collaborators of one `generate_test_cases` invocation, as
uninterpreted functions: the wall clock (elapsed seconds at the n-th
top-of-loop budget check), the two LLM agents (`.error` models a raised
exception), the C++ compiler, the compiled validator binary (via
`ValidatorExecutorService`), the compiled generator binary (raw
subprocess result for an executable and argument list) and the Python
oracle subprocess (raw result of `CodeExecutor._run_subprocess`).
The problem statement, oracle source and constraint text influence the
loop only through these calls and are absorbed into the closures. -/
structure World where
  elapsedAt : Nat → Nat
  genGenerate : Except Unit (Str × List Str)
  genRevise : Str → List Str → Option Str → Except Unit (Str × List Str)
  compileGen : Str → CompileResult
  valGenerate : Except Unit Str
  valRevise : Str → List Str → List Str → Option Str → Option (List Str) → Except Unit Str
  compileVal : Str → CompileResult
  runValidator : Str → Str → ValidationResult
  genExec : Str → List Str → PyRun
  oracleRun : Str → PyRun

/-- `self.timeout_seconds` (600). -/
def timeoutSeconds : Nat := 600

/-- `self.max_iterations` (100). -/
def maxIterations : Nat := 100

/-- `self.max_compilation_fixes` (3). -/
def maxCompilationFixes : Nat := 3

/-- Mutable state of the supervision loop (lines 188-198), plus the
top-of-loop check counter indexing the wall clock and the ghost trace of
agent invocations. -/
structure LoopState where
  iteration : Nat
  checkIdx : Nat
  generatorCode : Option Str
  validatorCode : Option Str
  generatorCommands : List Str
  validationErrors : List Str
  compilationErrors : Option Str
  sampleInputs : List Str
  validationOutputs : List Str
  generatorExecutable : Option Str
  validatorExecutable : Option Str
  validCases : List Str
  trace : List AgentCall
deriving DecidableEq, Repr

/-- Outcome of one pass of the loop body: `continue` to the next
iteration, or `break` out of the `while`. -/
inductive BodyOutcome
  | next (s : LoopState)
  | exitLoop (s : LoopState)
deriving DecidableEq, Repr

/-- Successful return value of `generate_test_cases` (lines 629-637). -/
structure SupervisionResult where
  testCases : List TestCase
  totalGenerated : Nat
  generatorCode : Option Str
  validatorCode : Option Str
  generatorCommands : List Str
  iterations : Nat
deriving DecidableEq, Repr

/-- `CodeExecutor.execute` on the oracle code for one input: the wrapper
around `_run_subprocess` (temp-file handling has no semantic effect). -/
def execute (w : World) (inp : Str) : ExecResult :=
  run_subprocess (w.oracleRun inp)

/-- Oracle pass of the supervisor (lines 560-566 and again 619-625): run
the oracle on each input in order, pair stdout with the input, and keep
a pair only when the run succeeded and its (stripped) output is truthy. -/
def oraclePass (w : World) (inputs : List Str) : List TestCase :=
  inputs.filterMap (fun inp =>
    let r := execute w inp
    if r.success && r.outputTruthy then some ⟨inp, r.output.getD []⟩ else none)

/-- The "insufficient diversity" error log (lines 581-587). -/
def diversityErrorLog (tcs : List TestCase) (uniqueOutputs : List Str) : List Str :=
  [ "DIVERSIDADE INSUFICIENTE: Todos os ".data ++ natToStr tcs.length ++
      " casos gerados têm a mesma saída esperada.".data,
    "Saída repetida: ".data ++ (pyStrip (uniqueOutputs.headD [])).take 100,
    "O gerador deve criar casos que cubram diferentes cenários e produzam saídas variadas.".data,
    "Analise o código oráculo para identificar quais condições levam a diferentes saídas.".data,
    "Gere casos que testem TODOS os possíveis caminhos de execução (ex: YES e NO, diferentes ranges, edge cases).".data ]

/-- Steps 10-11 of the loop body (lines 554-603, reached only when the
iteration produced no new valid case, at least one invalid case, and the
accumulator holds at least `target_count` candidates): run the oracle on
the first `target_count` accumulated candidates; with at least one pair
and exactly one distinct stripped output, clear the accumulator, install
the diversity error log and continue; with two or more distinct outputs
(a ratio below 20% only logs a warning) break out of the loop; with no
pairs at all, fall through and continue. -/
def inLoopDiversity (w : World) (targetCount : Nat) (s : LoopState) : BodyOutcome :=
  let tcs := oraclePass w (s.validCases.take targetCount)
  if tcs ≠ [] then
    let uniqueOutputs := (tcs.map (fun tc => pyStrip tc.output)).dedup
    if uniqueOutputs.length = 1 then
      .next { s with validationErrors := diversityErrorLog tcs uniqueOutputs,
                     validCases := [] }
    else .exitLoop s
  else .next s

/-- The one-shot normalization retry input (lines 502-509): add a
trailing newline when the candidate has none, otherwise strip the
trailing newlines. -/
def normalizationRetryInput (inp : Str) : Str :=
  if ¬ endsWithNl inp then inp ++ ['\n'] else rstripNewlines inp

/-- Python truthiness of the `examples` argument. -/
def examplesTruthy : Option (List Example) → Bool
  | none => false
  | some l => decide (l ≠ [])

/-- `[ex.get("input", "") for ex in examples if ex.get("input")]`. -/
def exampleInputs : Option (List Example) → List Str
  | none => []
  | some exs => (exs.filter (fun e => decide (e.input ≠ []))).map (fun e => e.input)

/-- `[ex.get("output", "") for ex in examples if ex.get("input")] if
examples else None` (lines 274 and 315). -/
def exampleExpectedOutputs : Option (List Example) → Option (List Str)
  | none => none
  | some exs =>
    if exs = [] then none
    else some ((exs.filter (fun e => decide (e.input ≠ []))).map (fun e => e.output))

/-- Debug info appended to a failed normalization retry (lines 520-530). -/
def formatInfo (inp : Str) (examples : Option (List Example)) : Str :=
  let base :=
    "\n  Caso gerado (repr): ".data ++ pyRepr inp ++
    "\n  Caso gerado termina com newline? ".data ++
    (if endsWithNl inp then "SIM".data else "NÃO".data)
  match examples with
  | some (e :: _) =>
    if e.input ≠ [] then
      base ++ "\n  Exemplo do problema (repr): ".data ++ pyRepr e.input ++
      "\n  Exemplo termina com newline? ".data ++
      (if endsWithNl e.input then "SIM".data else "NÃO".data)
    else base
  | _ => base

/-- Detailed per-sample diagnostic of step 5 (lines 431-441). -/
def detailedSampleError (idx : Nat) (input emsg : Str) : Str :=
  let inputLines := splitOnNl input
  "Exemplo ".data ++ natToStr (idx + 1) ++ ":\n".data ++
  "  Input (texto):\n".data ++ input ++ "\n".data ++
  "  Input (repr, mostra caracteres especiais): ".data ++ pyRepr input ++ "\n".data ++
  "  Número de linhas: ".data ++ natToStr inputLines.length ++ "\n".data ++
  "  Linhas do input:\n".data ++
  joinAll (inputLines.enum.map (fun p =>
    "    Linha ".data ++ natToStr (p.1 + 1) ++ ": ".data ++ pyRepr p.2 ++ "\n".data)) ++
  "  Erro do validador: ".data ++ emsg ++ "\n".data

/-- Methods defined on `ValidatorAgentService`
(validator_agent_service.py).  `generate_minimal_validator_code`, which
the supervisor calls at lines 326 and 374, is not among them — nor is it
defined anywhere else in the repository. -/
def validatorAgentMethods : List Str :=
  [ "__init__".data,
    "generate_validator_program".data,
    "_build_validator_prompt".data,
    "_parse_validator_response".data,
    "_remove_inline_instructions".data,
    "_validate_and_fix_validator_code".data,
    "_balance_braces".data,
    "_fix_incomplete_returns".data,
    "_ensure_compilable_validator".data,
    "revise_validator_program".data,
    "_analyze_input_format".data,
    "_get_format_instruction".data ]

/-- Python attribute semantics of
`self.validator_agent.generate_minimal_validator_code(sample_inputs)`:
the lookup raises `AttributeError` because the method is not defined on
the class, so the call never produces validator code. -/
def generateMinimalValidatorCall (sampleInputs : List Str) : Except Str Str :=
  if validatorAgentMethods.contains ("generate_minimal_validator_code".data) then
    Except.ok (joinAll sampleInputs)
  else Except.error ("AttributeError".data)

/-- `_compile_with_auto_fix` (lines 38-115): compile; on failure ask the
agent to revise with the compilation error, up to
`max_compilation_fixes` times; a revision exception breaks out.  Returns
the last compilation result, the current code, and the agent calls
made.  (With zero allowed fixes the `while` body would never run; the
constant is 3, so that case is unreachable.) -/
def autoFixLoop (compile : Str → CompileResult)
    (revise : Str → Str → Except Unit Str) (tag : AgentCall) :
    Nat → Str → CompileResult × Str × List AgentCall
  | 0, code => (compile code, code, [])
  | remaining + 1, code =>
    let r := compile code
    if r.success then (r, code, [])
    else
      match revise code r.error with
      | .error _ => (r, code, [tag])
      | .ok code2 =>
        if remaining = 0 then (r, code2, [tag])
        else
          let (r2, c2, t2) := autoFixLoop compile revise tag remaining code2
          (r2, c2, tag :: t2)

/-- One pass of the `try` body of the supervision loop (lines 223-607).
An agent exception (`.error`) is caught by the enclosing
`except Exception` and turns into `continue`, keeping the mutations made
so far.  Log statements, temp-file debugging (lines 288-301, 354-359,
402-418) and the crash-code classification, which only log, are
omitted. -/
def iterationBody (w : World) (examples : Option (List Example)) (targetCount : Nat)
    (s0 : LoopState) : BodyOutcome := Id.run do
  let mut s := s0
  -- step 1: generate or revise the generator program (lines 225-242)
  match s.generatorCode with
  | none =>
    s := { s with trace := s.trace ++ [AgentCall.genGenerate] }
    match w.genGenerate with
    | .error _ => return .next s
    | .ok (code, cmds) =>
      s := { s with generatorCode := some code, generatorCommands := cmds }
  | some code =>
    s := { s with trace := s.trace ++ [AgentCall.genRevise] }
    match w.genRevise code s.validationErrors s.compilationErrors with
    | .error _ => return .next s
    | .ok (code2, cmds) =>
      s := { s with generatorCode := some code2, generatorCommands := cmds }
  -- step 2: compile the generator with auto-fix (lines 244-262)
  let (genCompile, genCode2, genFixTrace) :=
    autoFixLoop w.compileGen
      (fun code err => (w.genRevise code s.validationErrors (some err)).map Prod.fst)
      AgentCall.genRevise maxCompilationFixes (s.generatorCode.getD [])
  s := { s with generatorCode := some genCode2, trace := s.trace ++ genFixTrace }
  if ¬ genCompile.success then
    s := { s with compilationErrors := some genCompile.error, validationErrors := [] }
    return .next s
  s := { s with generatorExecutable := some genCompile.executablePath,
                compilationErrors := none }
  -- step 3: generate or revise the validator program (lines 264-283)
  let expectedOutputs := exampleExpectedOutputs examples
  match s.validatorCode with
  | none =>
    s := { s with trace := s.trace ++ [AgentCall.valGenerate] }
    match w.valGenerate with
    | .error _ => return .next s
    | .ok vcode => s := { s with validatorCode := some vcode }
  | some vcode =>
    s := { s with trace := s.trace ++ [AgentCall.valRevise] }
    match w.valRevise vcode s.sampleInputs s.validationOutputs s.compilationErrors
        expectedOutputs with
    | .error _ => return .next s
    | .ok vcode2 => s := { s with validatorCode := some vcode2 }
  -- step 4: compile the validator with auto-fix (lines 285-352)
  let (valCompile, valCode2, valFixTrace) :=
    autoFixLoop w.compileVal
      (fun code err =>
        w.valRevise code s.sampleInputs s.validationOutputs (some err) expectedOutputs)
      AgentCall.valRevise maxCompilationFixes (s.validatorCode.getD [])
  s := { s with validatorCode := some valCode2, trace := s.trace ++ valFixTrace }
  if ¬ valCompile.success then
    -- fallback to the minimal validator (lines 322-349); the attribute
    -- lookup raises, so the except-branch at line 341 runs
    if s.iteration ≥ 1 ∧ s.sampleInputs ≠ [] then
      match generateMinimalValidatorCall s.sampleInputs with
      | .ok mcode =>
        let mres := w.compileVal mcode
        if mres.success then
          s := { s with validatorCode := some mcode,
                        validatorExecutable := some mres.executablePath,
                        compilationErrors := none }
        else
          s := { s with compilationErrors := some mres.error, validationErrors := [] }
          return .next s
      | .error _ =>
        s := { s with compilationErrors := some valCompile.error, validationErrors := [] }
        return .next s
    else
      s := { s with compilationErrors := some valCompile.error, validationErrors := [] }
      return .next s
  else
    s := { s with validatorExecutable := some valCompile.executablePath,
                  compilationErrors := none }
  -- step 5: validate the worked examples (lines 361-455)
  if examplesTruthy examples then
    let sampleInputs := exampleInputs examples
    s := { s with sampleInputs := sampleInputs }
    if sampleInputs ≠ [] then
      let valExe := s.validatorExecutable.getD []
      let mut sampleValidations := sampleInputs.map (w.runValidator valExe)
      let mut failedSamples := sampleValidations.filter (fun v => ¬ v.valid)
      if failedSamples ≠ [] ∧ s.iteration ≥ 3 then
        -- force the minimal validator (lines 370-398); the attribute
        -- lookup raises and the except-branch at line 396 falls through
        match generateMinimalValidatorCall sampleInputs with
        | .ok mcode =>
          let mres := w.compileVal mcode
          if mres.success then
            s := { s with validatorCode := some mcode,
                          validatorExecutable := some mres.executablePath }
            sampleValidations := sampleInputs.map (w.runValidator mres.executablePath)
            failedSamples := sampleValidations.filter (fun v => ¬ v.valid)
        | .error _ => pure ()
      if failedSamples ≠ [] then
        let pairs := sampleInputs.zip sampleValidations
        let plainOutputs : List Str :=
          pairs.map (fun p => if p.2.valid then [] else errMsgStep5 p.2)
        let detailedErrors : List Str := pairs.enum.filterMap (fun q =>
          if q.2.2.valid then none
          else some (detailedSampleError q.1 q.2.1 (errMsgStep5 q.2.2)))
        let newOutputs := if detailedErrors ≠ [] then detailedErrors else plainOutputs
        s := { s with validationOutputs := newOutputs }
        return .next s
  -- step 6: run the generator (lines 457-476)
  let genExe := s.generatorExecutable.getD []
  let genResults :=
    generate_test_cases_batch (w.genExec genExe) s.generatorCommands (targetCount * 2)
  let generatedInputs := genResults.filterMap (fun r =>
    if r.success then
      match r.inputData with
      | some d => if d ≠ [] then some d else none
      | none => none
    else none)
  if generatedInputs = [] then
    s := { s with validationErrors := ["Nenhum caso de teste foi gerado com sucesso".data] }
    return .next s
  -- steps 7-8: validate the candidates, with the normalization retry
  -- (lines 478-537)
  let valExe := s.validatorExecutable.getD []
  let validationResults := generatedInputs.map (w.runValidator valExe)
  let mut newValid : List Str := []
  let mut invalid : List Str := []
  let mut valErrs : List Str := []
  let mut retried : List Str := []
  for p in generatedInputs.zip validationResults do
    let inp := p.1
    let res := p.2
    if res.valid then
      newValid := newValid ++ [inp]
    else
      invalid := invalid ++ [inp]
      let emsg := errMsgStep7 res
      if containsSub ("EOLN".data) emsg || containsSub ("Expected".data) emsg then
        let normalized := normalizationRetryInput inp
        let mut accepted := false
        if normalized ≠ [] then
          let reval := w.runValidator valExe normalized
          if reval.valid then
            retried := retried ++ [normalized]
            accepted := true
        if ¬ accepted then
          valErrs := valErrs ++ [emsg ++ formatInfo inp examples]
      else
        valErrs := valErrs ++ [emsg]
  s := { s with validCases := s.validCases ++ retried ++ newValid,
                validationErrors := valErrs }
  -- step 9: progress decision (lines 539-551)
  if invalid = [] then
    s := { s with validationErrors := [] }
    return .next s
  if newValid ≠ [] then
    s := { s with validationErrors := [] }
    return .next s
  -- steps 10-11: oracle pass and diversity enforcement (lines 554-603)
  if s.validCases.length ≥ targetCount then
    return inLoopDiversity w targetCount s
  return .next s

/-- The `while True` loop of `generate_test_cases` (lines 200-607).  The
fuel only bounds the recursion; the iteration-cap break makes any fuel
above `maxIterations + 1` passes unreachable. -/
def runLoop (w : World) (examples : Option (List Example)) (targetCount : Nat) :
    Nat → LoopState → LoopState
  | 0, s => s
  | fuel + 1, s =>
    if w.elapsedAt s.checkIdx ≥ timeoutSeconds then s
    else if s.validCases.length ≥ targetCount then s
    else
      let s2 := { s with iteration := s.iteration + 1, checkIdx := s.checkIdx + 1 }
      if s2.iteration > maxIterations then s2
      else
        match iterationBody w examples targetCount s2 with
        | .next s3 => runLoop w examples targetCount fuel s3
        | .exitLoop s3 => s3

/-- Initial loop state (lines 188-198). -/
def initialState : LoopState :=
  { iteration := 0, checkIdx := 0, generatorCode := none, validatorCode := none,
    generatorCommands := [], validationErrors := [], compilationErrors := none,
    sampleInputs := [], validationOutputs := [], generatorExecutable := none,
    validatorExecutable := none, validCases := [], trace := [] }

/-- Fuel sufficient for the iteration cap. -/
def loopFuel : Nat := maxIterations + 2

/-- State at loop exit of one `generate_test_cases` invocation. -/
def runSupervisor (w : World) (examples : Option (List Example))
    (targetCount : Nat) : LoopState :=
  runLoop w examples targetCount loopFuel initialState

/-- The `ValueError` message raised at line 611. -/
def noValidCasesMsg : Str :=
  "Nenhum caso de teste válido foi gerado após todas as iterações".data

/-- `GeneratorValidatorSupervisionService.generate_test_cases`: run the
loop; with an empty accumulator raise `ValueError` (line 611), otherwise
truncate to the target count, run the final oracle pass (lines 616-625)
and return the result record. -/
def generate_test_cases (w : World) (examples : Option (List Example))
    (targetCount : Nat) : Except Str SupervisionResult :=
  let s := runSupervisor w examples targetCount
  if s.validCases = [] then Except.error noValidCasesMsg
  else
    let validCases := s.validCases.take targetCount
    let testCases := oraclePass w validCases
    Except.ok
      { testCases := testCases, totalGenerated := testCases.length,
        generatorCode := s.generatorCode, validatorCode := s.validatorCode,
        generatorCommands := s.generatorCommands, iterations := s.iteration }

/-- The suite of a `generate_test_cases` outcome (empty on an exception). -/
def suiteOf : Except Str SupervisionResult → List TestCase
  | .ok r => r.testCases
  | .error _ => []

/-- Whether `generate_test_cases` returned normally. -/
def resultOk : Except Str SupervisionResult → Bool
  | .ok _ => true
  | .error _ => false

/-- The exception message of a `generate_test_cases` outcome, if any. -/
def raisedMsg : Except Str SupervisionResult → Option Str
  | .ok _ => none
  | .error m => some m

/-- The validator-related fields of a loop-body outcome (used to observe
a concrete run of the body). -/
def bodyValidatorView : BodyOutcome → Option (Option Str × Option Str × Nat)
  | .next s => some (s.validatorCode, s.validatorExecutable, s.validationOutputs.length)
  | .exitLoop _ => none

/-- The error message of an attempted minimal-validator construction. -/
def minimalCallError (sampleInputs : List Str) : Option Str :=
  match generateMinimalValidatorCall sampleInputs with
  | .error m => some m
  | .ok _ => none

/-- A flag name shaped like `[a-zA-Z_][a-zA-Z0-9_]*`. -/
def isIdentShapedStr : Str → Bool
  | [] => false
  | c :: rest => isIdentStart c && rest.all isIdentChar

/-!  ## Concrete runs used to settle the claims -/

/-- A compiler that always succeeds with the given executable path. -/
def okCompile (exe : String) : Str → CompileResult := fun _ => ⟨true, exe.data, []⟩

/-- Run for C1: every candidate is valid, the accumulator reaches the
target inside the first iteration, and the loop breaks at the
top-of-loop target check — before any diversity check — while the
oracle answers `YES` on every input. -/
def cx1World : World where
  elapsedAt := fun _ => 0
  genGenerate := .ok ("G".data, ["./gen -a 1".data, "./gen -a 2".data])
  genRevise := fun _ _ _ => .error ()
  compileGen := okCompile "gexe"
  valGenerate := .ok ("V".data)
  valRevise := fun _ _ _ _ _ => .error ()
  compileVal := okCompile "vexe"
  runValidator := fun _ _ => ⟨true, none, none⟩
  genExec := fun _ args =>
    ⟨0, (if args = ["-a".data, "1".data] then "1\n" else "2\n").data, []⟩
  oracleRun := fun _ => ⟨0, "YES\n".data, []⟩

/-- Run for C2: a revision-capable world whose compiled validator keeps
rejecting the bundle's worked example. -/
def cx2World : World where
  elapsedAt := fun _ => 0
  genGenerate := .error ()
  genRevise := fun _ _ _ => .ok ("G2".data, ["./gen -n 1".data])
  compileGen := okCompile "gexe"
  valGenerate := .error ()
  valRevise := fun _ _ _ _ _ => .ok ("V2".data)
  compileVal := okCompile "vexe"
  runValidator := fun _ _ => ⟨false, some ("bad".data), none⟩
  genExec := fun _ _ => ⟨0, "1\n".data, []⟩
  oracleRun := fun _ => ⟨0, "x\n".data, []⟩

/-- The bundle examples of the C2 run. -/
def cx2Examples : Option (List Example) := some [⟨"1 2\n".data, "3\n".data⟩]

/-- Loop state entering the body at iteration 3 of the C2 run, after two
iterations of persistent sample rejection. -/
def cx2State : LoopState :=
  { initialState with
      iteration := 3,
      generatorCode := some ("G".data),
      validatorCode := some ("V".data),
      generatorCommands := ["./gen -n 1".data],
      sampleInputs := ["1 2\n".data] }

/-- Run for C3: the wall-clock budget is already exhausted at the first
top-of-loop check, so the loop exits with zero accumulated candidates. -/
def cx3World : World where
  elapsedAt := fun _ => 600
  genGenerate := .error ()
  genRevise := fun _ _ _ => .error ()
  compileGen := okCompile "g"
  valGenerate := .error ()
  valRevise := fun _ _ _ _ _ => .error ()
  compileVal := okCompile "v"
  runValidator := fun _ _ => ⟨true, none, none⟩
  genExec := fun _ _ => ⟨0, [], []⟩
  oracleRun := fun _ => ⟨0, [], []⟩

/-- Run for C4: the validator rejects both runner-normalized candidates
with an `Expected EOLN` diagnostic but accepts them once the retry
strips the trailing newline; the oracle gives two distinct outputs. -/
def cx4World : World where
  elapsedAt := fun _ => 0
  genGenerate := .ok ("G".data, ["./gen -a 1".data, "./gen -a 2".data])
  genRevise := fun _ _ _ => .error ()
  compileGen := okCompile "gexe"
  valGenerate := .ok ("V".data)
  valRevise := fun _ _ _ _ _ => .error ()
  compileVal := okCompile "vexe"
  runValidator := fun _ inp =>
    if inp = "1 2\n".data ∨ inp = "2 5\n".data then
      ⟨false, some ("Expected EOLN".data), none⟩
    else ⟨true, none, none⟩
  genExec := fun _ args =>
    ⟨0, (if args = ["-a".data, "1".data] then "1 2\n" else "2 5\n").data, []⟩
  oracleRun := fun inp => ⟨0, (if inp = "1 2".data then "3\n" else "7\n").data, []⟩

/-- Run for C5: the oracle's stdout carries leading whitespace. -/
def cx5World : World where
  elapsedAt := fun _ => 0
  genGenerate := .ok ("G".data, ["./gen -a 1".data])
  genRevise := fun _ _ _ => .error ()
  compileGen := okCompile "gexe"
  valGenerate := .ok ("V".data)
  valRevise := fun _ _ _ _ _ => .error ()
  compileVal := okCompile "vexe"
  runValidator := fun _ _ => ⟨true, none, none⟩
  genExec := fun _ _ => ⟨0, "1\n".data, []⟩
  oracleRun := fun _ => ⟨0, " 7\n".data, []⟩

/-- Generator source for C6: it declares only the option `n` but its
`COMMANDS` block uses the undeclared flag `-m`. -/
def cx6Code : Str :=
  ("#include \"testlib.h\"\nint main() /* COMMANDS:\n./gen -m 5\n*/ opt<int>(\"n\")").data

/-- Run for C7: an arbitrary world, invoked with `target_count = 0`. -/
def cx7World : World where
  elapsedAt := fun _ => 0
  genGenerate := .ok ("G".data, ["./gen -a 1".data])
  genRevise := fun _ _ _ => .error ()
  compileGen := okCompile "g"
  valGenerate := .ok ("V".data)
  valRevise := fun _ _ _ _ _ => .error ()
  compileVal := okCompile "v"
  runValidator := fun _ _ => ⟨true, none, none⟩
  genExec := fun _ _ => ⟨0, "1\n".data, []⟩
  oracleRun := fun _ => ⟨0, "x\n".data, []⟩

/-- The command of the C8 runs. -/
def cx8Cmd : Str := "./gen -n 10".data

/-- First possible subprocess behavior of the C8 generator: nothing in
the runner pins the child's output, since no seed argument is passed. -/
def cx8RunA : List Str → PyRun := fun _ => ⟨0, "1 2\n".data, []⟩

/-- Second possible subprocess behavior of the C8 generator on the very
same command line. -/
def cx8RunB : List Str → PyRun := fun _ => ⟨0, "3 4\n".data, []⟩

/-- Run for C9: the oracle succeeds on both inputs but produces a
whitespace-only stdout on the second. -/
def cx9World : World where
  elapsedAt := fun _ => 0
  genGenerate := .error ()
  genRevise := fun _ _ _ => .error ()
  compileGen := okCompile "g"
  valGenerate := .error ()
  valRevise := fun _ _ _ _ _ => .error ()
  compileVal := okCompile "v"
  runValidator := fun _ _ => ⟨true, none, none⟩
  genExec := fun _ _ => ⟨0, [], []⟩
  oracleRun := fun inp => if inp = "a\n".data then ⟨0, "x\n".data, []⟩ else ⟨0, " \n".data, []⟩

/-- The accumulated candidates fed to the C9 oracle pass. -/
def cx9Inputs : List Str := ["a\n".data, "b\n".data]

/-- State used to witness the C1 diversity branch: two accumulated
candidates whose oracle outputs coincide. -/
def cx1DivState : LoopState :=
  { initialState with validCases := ["a\n".data, "b\n".data] }

/-- Generator source for the C6 witness: option `n` declared and a
command that uses only `-n`. -/
def cx6ValidCode : Str :=
  ("int main() /* COMMANDS:\n./gen -n 7\n*/ opt<int>(\"n\")").data

/-!  # Theorems -/

/-!  ## Generalities about `countChar` and prefixes -/

theorem countChar_nil (c : Char) : countChar c [] = 0 := rfl

theorem countChar_cons (c x : Char) (s : Str) :
    countChar c (x :: s) = if x = c then countChar c s + 1 else countChar c s := rfl

theorem countChar_cons_self (c : Char) (s : Str) :
    countChar c (c :: s) = countChar c s + 1 := by
  simp [countChar_cons]

theorem countChar_cons_ne {c x : Char} (h : ¬ x = c) (s : Str) :
    countChar c (x :: s) = countChar c s := by
  simp [countChar_cons, h]

theorem countChar_append (c : Char) (s t : Str) :
    countChar c (s ++ t) = countChar c s + countChar c t := by
  induction s with
  | nil => simp [countChar_nil]
  | cons x s ih =>
    simp only [List.cons_append, countChar_cons, ih]
    split <;> omega

theorem countChar_replicate_self (c : Char) (n : Nat) :
    countChar c (List.replicate n c) = n := by
  induction n with
  | zero => rfl
  | succ n ih => simp [List.replicate_succ, countChar_cons_self, ih]

theorem countChar_replicate_ne {c d : Char} (h : ¬ d = c) (n : Nat) :
    countChar c (List.replicate n d) = 0 := by
  induction n with
  | zero => rfl
  | succ n ih => simp [List.replicate_succ, countChar_cons_ne h, ih]

theorem countChar_le_of_isPref {c : Char} {p s : Str} (h : isPref p s) :
    countChar c p ≤ countChar c s := by
  obtain ⟨t, rfl⟩ := h
  rw [countChar_append]
  omega

theorem isPref_nil (s : Str) : isPref [] s := ⟨s, rfl⟩

theorem isPref_refl (s : Str) : isPref s s := ⟨[], by simp⟩

theorem isPref_cons {p : Str} {c : Char} {s : Str} (h : isPref p (c :: s)) :
    p = [] ∨ ∃ q, p = c :: q ∧ isPref q s := by
  obtain ⟨t, ht⟩ := h
  cases p with
  | nil => exact Or.inl rfl
  | cons d q =>
    cases ht
    exact Or.inr ⟨q, rfl, ⟨t, rfl⟩⟩

theorem isPref_cons_of_isPref {p : Str} {c : Char} {s : Str} (h : isPref p s) :
    isPref (c :: p) (c :: s) := by
  obtain ⟨t, rfl⟩ := h
  exact ⟨t, rfl⟩

/-!  ## C10: brace balancing -/

/-- Exhaustive shape of one `balanceBracesGo` step on a cons cell. -/
theorem balanceBracesGo_cons (n : Nat) (c : Char) (rest : Str) :
    balanceBracesGo n (c :: rest) =
      if c = '{' then c :: balanceBracesGo (n + 1) rest
      else if c = '}' then
        if n = 0 then balanceBracesGo 0 rest
        else c :: balanceBracesGo (n - 1) rest
      else c :: balanceBracesGo n rest := rfl

/-- The empty-input case of the scan. -/
theorem balanceBracesGo_nil_counts (n : Nat) :
    countChar '}' (balanceBracesGo n []) = n ∧ countChar '{' (balanceBracesGo n []) = 0 := by
  simp only [balanceBracesGo]
  split
  · rw [countChar_cons_ne (by decide), countChar_cons_ne (by decide),
      countChar_replicate_self, countChar_replicate_ne (by decide)]
    exact ⟨rfl, rfl⟩
  · rename_i h
    have : n = 0 := by omega
    simp [this, countChar_nil]

/-- The output closes every brace left open: the count of closers
exceeds the count of openers by exactly the entry `open_count`. -/
theorem balanceBracesGo_counts (s : Str) :
    ∀ n, countChar '}' (balanceBracesGo n s) = countChar '{' (balanceBracesGo n s) + n := by
  induction s with
  | nil =>
    intro n
    have := balanceBracesGo_nil_counts n
    omega
  | cons c rest ih =>
    intro n
    rw [balanceBracesGo_cons]
    by_cases hc : c = '{'
    · subst hc
      rw [if_pos rfl]
      rw [countChar_cons_ne (by decide), countChar_cons_self]
      have := ih (n + 1)
      omega
    · rw [if_neg hc]
      by_cases hc2 : c = '}'
      · subst hc2
        rw [if_pos rfl]
        by_cases hn : n = 0
        · rw [if_pos hn, hn]
          simpa using ih 0
        · rw [if_neg hn]
          rw [countChar_cons_self, countChar_cons_ne (by decide)]
          have := ih (n - 1)
          omega
      · rw [if_neg hc2]
        rw [countChar_cons_ne hc2, countChar_cons_ne hc]
        have := ih n
        omega

/-- Every prefix of the output has at most `open_count` more closers
than openers. -/
theorem balanceBracesGo_prefixSafe (s : Str) :
    ∀ n p, isPref p (balanceBracesGo n s) → countChar '}' p ≤ countChar '{' p + n := by
  induction s with
  | nil =>
    intro n p hp
    have hle : countChar '}' p ≤ countChar '}' (balanceBracesGo n []) :=
      countChar_le_of_isPref hp
    have := balanceBracesGo_nil_counts n
    omega
  | cons c rest ih =>
    intro n p hp
    rw [balanceBracesGo_cons] at hp
    by_cases hc : c = '{'
    · subst hc
      rw [if_pos rfl] at hp
      rcases isPref_cons hp with rfl | ⟨q, rfl, hq⟩
      · simp [countChar_nil]
      · have := ih (n + 1) q hq
        rw [countChar_cons_ne (by decide), countChar_cons_self]
        omega
    · rw [if_neg hc] at hp
      by_cases hc2 : c = '}'
      · subst hc2
        rw [if_pos rfl] at hp
        by_cases hn : n = 0
        · rw [if_pos hn] at hp
          have := ih 0 p hp
          omega
        · rw [if_neg hn] at hp
          rcases isPref_cons hp with rfl | ⟨q, rfl, hq⟩
          · simp [countChar_nil]
          · have := ih (n - 1) q hq
            rw [countChar_cons_self, countChar_cons_ne (by decide)]
            omega
      · rw [if_neg hc2] at hp
        rcases isPref_cons hp with rfl | ⟨q, rfl, hq⟩
        · simp [countChar_nil]
        · have := ih n q hq
          rw [countChar_cons_ne hc2, countChar_cons_ne hc]
          omega

/-- The tail appended at the end of the scan. -/
def closeTail (m : Nat) : Str :=
  if 0 < m then '\n' :: List.replicate m '}' else []

/-- On input whose prefixes stay within the `open_count` allowance, the
scan keeps the text unchanged and appends only the closing tail. -/
theorem balanceBracesGo_of_safe (s : Str) :
    ∀ n, (∀ p, isPref p s → countChar '}' p ≤ countChar '{' p + n) →
      balanceBracesGo n s = s ++ closeTail (n + countChar '{' s - countChar '}' s) := by
  induction s with
  | nil =>
    intro n _
    simp [balanceBracesGo, closeTail, countChar_nil]
  | cons c rest ih =>
    intro n hsafe
    rw [balanceBracesGo_cons]
    by_cases hc : c = '{'
    · subst hc
      rw [if_pos rfl]
      have hrest : ∀ p, isPref p rest → countChar '}' p ≤ countChar '{' p + (n + 1) := by
        intro p hp
        have := hsafe ('{' :: p) (isPref_cons_of_isPref hp)
        rw [countChar_cons_ne (by decide), countChar_cons_self] at this
        omega
      rw [ih (n + 1) hrest]
      rw [countChar_cons_ne (by decide : ¬ '{' = '}'),
        countChar_cons_self]
      have harith : n + 1 + countChar '{' rest - countChar '}' rest =
          n + (countChar '{' rest + 1) - countChar '}' rest := by omega
      rw [List.cons_append, harith]
    · rw [if_neg hc]
      by_cases hc2 : c = '}'
      · subst hc2
        rw [if_pos rfl]
        have hpos : 1 ≤ n := by
          have := hsafe ['}'] (isPref_cons_of_isPref (isPref_nil rest))
          rw [countChar_cons_self, countChar_cons_ne (by decide), countChar_nil,
            countChar_nil] at this
          omega
        rw [if_neg (by omega)]
        have hrest : ∀ p, isPref p rest → countChar '}' p ≤ countChar '{' p + (n - 1) := by
          intro p hp
          have := hsafe ('}' :: p) (isPref_cons_of_isPref hp)
          rw [countChar_cons_self, countChar_cons_ne (by decide)] at this
          omega
        rw [ih (n - 1) hrest]
        rw [countChar_cons_self, countChar_cons_ne (by decide : ¬ '}' = '{')]
        have harith : n - 1 + countChar '{' rest - countChar '}' rest =
            n + countChar '{' rest - (countChar '}' rest + 1) := by omega
        rw [List.cons_append, harith]
      · rw [if_neg hc2]
        have hrest : ∀ p, isPref p rest → countChar '}' p ≤ countChar '{' p + n := by
          intro p hp
          have := hsafe (c :: p) (isPref_cons_of_isPref hp)
          rw [countChar_cons_ne hc2, countChar_cons_ne hc] at this
          omega
        rw [ih n hrest]
        rw [countChar_cons_ne hc2, countChar_cons_ne hc]
        rw [List.cons_append]

/-- C10: for every input string, `_balance_braces` returns a string with
equal counts of opening and closing braces in which no prefix has more
closers than openers; the pass is idempotent and leaves any string that
is already balanced in this counting sense unchanged. -/
theorem claim_C10_balance_braces (s : Str) :
    countChar '}' (balance_braces s) = countChar '{' (balance_braces s) ∧
    (∀ p, isPref p (balance_braces s) → countChar '}' p ≤ countChar '{' p) ∧
    balance_braces (balance_braces s) = balance_braces s ∧
    ((countChar '{' s = countChar '}' s ∧
        ∀ p, isPref p s → countChar '}' p ≤ countChar '{' p) →
      balance_braces s = s) := by
  have hcounts : ∀ x : Str, countChar '}' (balance_braces x) = countChar '{' (balance_braces x) := by
    intro x
    have := balanceBracesGo_counts x 0
    simpa [balance_braces] using this
  have hsafe : ∀ x p, isPref p (balance_braces x) → countChar '}' p ≤ countChar '{' p := by
    intro x p hp
    have := balanceBracesGo_prefixSafe x 0 p hp
    omega
  have hfix : ∀ x : Str,
      countChar '{' x = countChar '}' x →
      (∀ p, isPref p x → countChar '}' p ≤ countChar '{' p) →
      balance_braces x = x := by
    intro x hbal hpre
    have h := balanceBracesGo_of_safe x 0 (fun p hp => by have := hpre p hp; omega)
    have h0 : 0 + countChar '{' x - countChar '}' x = 0 := by omega
    rw [h0] at h
    simpa [balance_braces, closeTail] using h
  refine ⟨hcounts s, hsafe s, ?_, fun h => hfix s h.1 h.2⟩
  exact hfix (balance_braces s) (hcounts s).symm (hsafe s)

/-- Executable check that every prefix keeps the closer count within
the opener count plus the allowance `k`. -/
def prefixSafeB : Nat → Str → Bool
  | _, [] => true
  | k, c :: rest =>
    if c = '{' then prefixSafeB (k + 1) rest
    else if c = '}' then decide (0 < k) && prefixSafeB (k - 1) rest
    else prefixSafeB k rest

/-- The executable check implies the prefix property. -/
theorem prefixSafe_of_scan (s : Str) :
    ∀ k, prefixSafeB k s = true →
      ∀ p, isPref p s → countChar '}' p ≤ countChar '{' p + k := by
  induction s with
  | nil =>
    intro k _ p hp
    obtain ⟨t, ht⟩ := hp
    have : p = [] := by
      cases p with
      | nil => rfl
      | cons a q => simp at ht
    subst this
    simp [countChar_nil]
  | cons c rest ih =>
    intro k hscan p hp
    simp only [prefixSafeB] at hscan
    by_cases hc : c = '{'
    · subst hc
      rw [if_pos rfl] at hscan
      rcases isPref_cons hp with rfl | ⟨q, rfl, hq⟩
      · simp [countChar_nil]
      · have := ih (k + 1) hscan q hq
        rw [countChar_cons_ne (by decide), countChar_cons_self]
        omega
    · rw [if_neg hc] at hscan
      by_cases hc2 : c = '}'
      · subst hc2
        rw [if_pos rfl] at hscan
        have hk : 0 < k := by
          by_contra hk0
          simp [Nat.not_lt, Nat.le_zero] at hk0
          simp [hk0] at hscan
        have hrest : prefixSafeB (k - 1) rest = true := by
          rcases (Bool.and_eq_true _ _).mp hscan with ⟨_, h⟩
          exact h
        rcases isPref_cons hp with rfl | ⟨q, rfl, hq⟩
        · simp [countChar_nil]
        · have := ih (k - 1) hrest q hq
          rw [countChar_cons_self, countChar_cons_ne (by decide)]
          omega
      · rw [if_neg hc2] at hscan
        rcases isPref_cons hp with rfl | ⟨q, rfl, hq⟩
        · simp [countChar_nil]
        · have := ih k hscan q hq
          rw [countChar_cons_ne hc2, countChar_cons_ne hc]
          omega

/-- Witness for C10: the fixed-point implication of the theorem
discharged on the concrete balanced string `"{x}"`. -/
theorem claim_C10_witness :
    balance_braces ('{' :: 'x' :: ['}']) = '{' :: 'x' :: ['}'] :=
  (claim_C10_balance_braces ('{' :: 'x' :: ['}'])).2.2.2
    ⟨by decide, fun p hp => by
      have := prefixSafe_of_scan ('{' :: 'x' :: ['}']) 0 (by decide) p hp
      omega⟩

/-!  ## Newline normalization (C4) -/

/-- The head surviving a `dropWhile` fails the predicate. -/
theorem dropWhile_head_false (p : Char → Bool) :
    ∀ (l : Str) c rest, l.dropWhile p = c :: rest → p c = false := by
  intro l
  induction l with
  | nil =>
    intro c rest h
    simp [List.dropWhile] at h
  | cons a l ih =>
    intro c rest h
    rw [List.dropWhile_cons] at h
    by_cases hp : p a
    · rw [if_pos hp] at h
      exact ih c rest h
    · rw [if_neg hp] at h
      cases h
      simpa using hp

/-- Reversal view of `rstrip('\n')`. -/
theorem reverse_rstripNewlines (s : Str) :
    (rstripNewlines s).reverse = s.reverse.dropWhile (fun c => c = '\n') := by
  simp [rstripNewlines]

/-- A string whose reversal does not begin with a newline, extended by
one newline, ends with exactly one newline. -/
theorem endsOne_append_nl (t : Str)
    (h : ∀ c rest, t.reverse = c :: rest → ¬ c = '\n') :
    endsWithExactlyOneNewline (t ++ ['\n']) = true := by
  have hrev : (t ++ ['\n']).reverse = '\n' :: t.reverse := by simp
  unfold endsWithExactlyOneNewline
  rw [hrev]
  cases ht : t.reverse with
  | nil => simp
  | cons c rest =>
    have hc := h c rest ht
    simp [hc]

/-- After `rstrip('\n')` a string no longer ends with a newline. -/
theorem endsWithNl_rstripNewlines (s : Str) :
    endsWithNl (rstripNewlines s) = false := by
  unfold endsWithNl
  rw [reverse_rstripNewlines]
  cases h : s.reverse.dropWhile (fun c => c = '\n') with
  | nil => rfl
  | cons c rest => exact dropWhile_head_false _ s.reverse c rest h

/-- The accepted output of one generator run is the normalized stdout. -/
theorem generate_test_case_inputData {exec : List Str → PyRun} {cmd : Str} {d : Str}
    (h : (generate_test_case exec cmd).inputData = some d) :
    d = rstripNewlines (exec (commandArgs cmd)).stdout ++ ['\n'] := by
  unfold generate_test_case at h
  cases hs : pySplit cmd with
  | nil => rw [hs] at h; simp at h
  | cons p rest =>
    rw [hs] at h
    unfold processGenOutput at h
    by_cases hrc : (exec (commandArgs cmd)).returncode = 0
    · rw [if_pos hrc] at h
      by_cases hempty : (exec (commandArgs cmd)).stdout = [] ∨
          pyStrip (exec (commandArgs cmd)).stdout = []
      · rw [if_pos hempty] at h
        simp at h
      · rw [if_neg hempty] at h
        simpa using h.symm
    · rw [if_neg hrc] at h
      simp at h

/-- C4 (amended): every candidate the Generator Runner returns ends with
exactly one trailing newline, but a candidate accepted through the
supervisor's normalization retry does not: on a candidate that ends
with a newline — as every runner-produced candidate does — the retry
strips all trailing newlines, and it is the stripped string that is
appended to the accumulator and can reach the returned suite. -/
theorem claim_C4_trailing_newline (exec : List Str → PyRun) (cmd : Str) (d inp : Str) :
    ((generate_test_case exec cmd).inputData = some d →
      endsWithExactlyOneNewline d = true) ∧
    (endsWithNl inp = true →
      normalizationRetryInput inp = rstripNewlines inp ∧
      endsWithNl (normalizationRetryInput inp) = false) := by
  constructor
  · intro h
    rw [generate_test_case_inputData h]
    refine endsOne_append_nl _ ?_
    intro c rest hrev
    rw [reverse_rstripNewlines] at hrev
    have := dropWhile_head_false _ _ c rest hrev
    simpa using this
  · intro h
    have hform : normalizationRetryInput inp = rstripNewlines inp := by
      unfold normalizationRetryInput
      rw [h]
      simp
    exact ⟨hform, by rw [hform]; exact endsWithNl_rstripNewlines inp⟩

/-- Witness for C4: the amended theorem applied to a concrete generator
run (stdout `"7 \n\n"`, normalized to `"7 \n"`) and to the concrete
accepted candidate `"1 2\n"` (retried as `"1 2"`). -/
theorem claim_C4_witness :
    endsWithExactlyOneNewline ("7 \n".data) = true ∧
    normalizationRetryInput ("1 2\n".data) = "1 2".data := by
  constructor
  · exact (claim_C4_trailing_newline (fun _ => ⟨0, "7 \n\n".data, []⟩)
      ("./gen -n 1".data) ("7 \n".data) []).1 (by decide)
  · have := (claim_C4_trailing_newline (fun _ => ⟨0, [], []⟩) [] [] ("1 2\n".data)).2
      (by decide)
    rw [this.1]
    decide

/-- C4 (counterexample): a complete supervision run in which both
candidates are accepted through the normalization retry; the returned
suite's inputs end with no trailing newline at all. -/
theorem claim_C4_counterexample :
    (suiteOf (generate_test_cases cx4World none 2)).map (fun tc => tc.input) =
      ["1 2".data, "2 5".data] ∧
    endsWithExactlyOneNewline ("1 2".data) = false := by
  constructor
  · decide
  · decide

/-!  ## Oracle pass (C5, C9) -/

/-- A successful oracle subprocess yields exactly the two-sided-stripped
stdout as its output. -/
theorem run_subprocess_success {r : PyRun} (h : (run_subprocess r).success = true) :
    (run_subprocess r).output = some (pyStrip r.stdout) := by
  unfold run_subprocess at h ⊢
  by_cases h1 : maxOutputSize < r.stdout.length
  · rw [if_pos h1] at h
    simp at h
  · rw [if_neg h1] at h ⊢
    by_cases h2 : r.returncode ≠ 0
    · rw [if_pos h2] at h
      simp at h
    · rw [if_neg h2]

/-- Every pair kept by the oracle pass came from a successful run whose
stripped stdout is non-empty and is the pair's output. -/
theorem oraclePass_mem {w : World} {inputs : List Str} {tc : TestCase}
    (h : tc ∈ oraclePass w inputs) :
    (execute w tc.input).success = true ∧
    tc.output = pyStrip (w.oracleRun tc.input).stdout ∧
    tc.output ≠ [] := by
  obtain ⟨a, _, hfa⟩ := List.mem_filterMap.mp h
  by_cases hcond : ((execute w a).success && (execute w a).outputTruthy) = true
  · rw [if_pos hcond] at hfa
    obtain ⟨hs, ht⟩ := (Bool.and_eq_true _ _).mp hcond
    have htc : tc = ⟨a, (execute w a).output.getD []⟩ := (Option.some.inj hfa).symm
    have hout : (execute w a).output = some (pyStrip (w.oracleRun a).stdout) :=
      run_subprocess_success hs
    subst htc
    refine ⟨hs, ?_, ?_⟩
    · simp [hout]
    · unfold ExecResult.outputTruthy at ht
      rw [hout] at ht
      simpa [hout] using of_decide_eq_true ht
  · rw [if_neg hcond] at hfa
    simp at hfa

/-- The suite of a normal return is the oracle pass over the first
`target_count` accumulated candidates. -/
theorem generate_test_cases_ok {w : World} {ex : Option (List Example)} {t : Nat}
    {r : SupervisionResult} (h : generate_test_cases w ex t = .ok r) :
    r.testCases = oraclePass w ((runSupervisor w ex t).validCases.take t) := by
  unfold generate_test_cases at h
  by_cases hv : (runSupervisor w ex t).validCases = []
  · rw [if_pos hv] at h
    simp at h
  · rw [if_neg hv] at h
    have := Except.ok.inj h
    rw [← this]

/-- C5 (amended): every test case of a returned suite carries as output
the oracle's stdout on the paired input with BOTH leading and trailing
whitespace stripped (`stdout.strip()` of `CodeExecutor._run_subprocess`),
not a trailing-only strip. -/
theorem claim_C5_output_strip (w : World) (ex : Option (List Example)) (t : Nat)
    (r : SupervisionResult) (h : generate_test_cases w ex t = .ok r) :
    ∀ tc ∈ r.testCases, tc.output = pyStrip (w.oracleRun tc.input).stdout := by
  intro tc htc
  rw [generate_test_cases_ok h] at htc
  exact (oraclePass_mem htc).2.1

/-- Witness for C5: the amended theorem applied to the concrete run
`cx5World`, whose oracle printed `" 7\n"`. -/
theorem claim_C5_witness :
    ("7".data : Str) = pyStrip (cx5World.oracleRun ("1\n".data)).stdout :=
  claim_C5_output_strip cx5World none 1
    ⟨[⟨"1\n".data, "7".data⟩], 1, some ("G".data), some ("V".data),
      ["./gen -a 1".data], 1⟩
    rfl ⟨"1\n".data, "7".data⟩ (by decide)

/-- C5 (counterexample): on the run `cx5World` the oracle's stdout is
`" 7\n"`; the suite stores `"7"`, while stripping trailing whitespace
only would preserve the leading space and give `" 7"`. -/
theorem claim_C5_counterexample :
    (suiteOf (generate_test_cases cx5World none 1)).map (fun tc => tc.output) =
      ["7".data] ∧
    specTrailingOnlyStrip (cx5World.oracleRun ("1\n".data)).stdout = " 7".data ∧
    ¬ ("7".data : Str) = " 7".data := by
  refine ⟨by decide, by decide, by decide⟩

/-- C9: a pair whose oracle run succeeds with a whitespace-only stdout
is dropped by the oracle pass, so the returned suite can be shorter than
the accumulated candidates even when every oracle run succeeded. -/
theorem claim_C9_empty_output_dropped :
    (∀ (w : World) (inputs : List Str) (inp : Str),
      pyStrip (w.oracleRun inp).stdout = [] →
      ∀ tc ∈ oraclePass w inputs, ¬ tc.input = inp) ∧
    (cx9Inputs.all (fun i => (execute cx9World i).success) = true ∧
      (oraclePass cx9World cx9Inputs).length < cx9Inputs.length) := by
  constructor
  · intro w inputs inp hempty tc htc heq
    have hm := oraclePass_mem htc
    rw [heq] at hm
    exact hm.2.2 (hm.2.1.trans hempty)
  · exact ⟨by decide, by decide⟩

/-- Witness for C9: by the theorem, no pair for input `"b\n"` — whose
oracle stdout `" \n"` strips to empty — survives the pass. -/
theorem claim_C9_witness :
    ¬ ((⟨"b\n".data, "x".data⟩ : TestCase) ∈ oraclePass cx9World cx9Inputs) :=
  fun h =>
    claim_C9_empty_output_dropped.1 cx9World cx9Inputs ("b\n".data) (by decide)
      ⟨"b\n".data, "x".data⟩ h rfl

/-!  ## Generator runner determinism (C8) -/

/-- C8 (amended): the Generator Runner consults the child process only
at the command's parsed argument list — the whitespace tokens with a
leading `./gen` or `gen` dropped — and derives no seed from the command:
`calculate_seed` has no caller.  Runs whose subprocess behaves the same
on those arguments give identical candidates, but nothing in the runner
itself pins down the subprocess output across runs. -/
theorem claim_C8_runner_frame (e1 e2 : List Str → PyRun) (cmd : Str)
    (h : e1 (commandArgs cmd) = e2 (commandArgs cmd)) :
    generate_test_case e1 cmd = generate_test_case e2 cmd := by
  unfold generate_test_case
  cases hs : pySplit cmd with
  | nil => rfl
  | cons p rest => rw [h]

/-- Witness for C8: the frame theorem applied to two distinct subprocess
functions that agree on the parsed arguments of `"./gen -n 10"`. -/
theorem claim_C8_witness :
    generate_test_case cx8RunA cx8Cmd =
      generate_test_case
        (fun args => if args = [] then ⟨1, [], []⟩ else ⟨0, "1 2\n".data, []⟩) cx8Cmd :=
  claim_C8_runner_frame cx8RunA _ cx8Cmd (by decide)

/-- C8 (counterexample): two subprocess behaviors on the very same
command line — both possible, since the runner passes only the command's
own tokens and no derived seed — produce different candidates; the
parsed invocation for `"./gen -n 10"` is exactly `["-n", "10"]`. -/
theorem claim_C8_counterexample :
    ¬ generate_test_case cx8RunA cx8Cmd = generate_test_case cx8RunB cx8Cmd ∧
    commandArgs cx8Cmd = ["-n".data, "10".data] := by
  exact ⟨by decide, by decide⟩

/-!  ## Diversity enforcement (C1) -/

/-- C1 (amended): the diversity check lives only on the in-loop oracle
pass, reached when an iteration adds no new valid candidate, rejects at
least one, and the accumulator holds the target.  There, one distinct
stripped output across at least one pair clears the accumulator and
continues into generator revision, and the loop breaks out of that path
only with at least two distinct stripped outputs.  Suites returned
through the top-of-loop target or budget checks never pass this code. -/
theorem claim_C1_diversity_scope (w : World) (t : Nat) (s s2 : LoopState) :
    (inLoopDiversity w t s = .exitLoop s2 →
      s2 = s ∧
      2 ≤ (((oraclePass w (s.validCases.take t)).map
          (fun tc => pyStrip tc.output)).dedup).length) ∧
    ((oraclePass w (s.validCases.take t)) ≠ [] →
      (((oraclePass w (s.validCases.take t)).map
          (fun tc => pyStrip tc.output)).dedup).length = 1 →
      inLoopDiversity w t s = .next
        { s with
            validationErrors := diversityErrorLog (oraclePass w (s.validCases.take t))
              (((oraclePass w (s.validCases.take t)).map
                (fun tc => pyStrip tc.output)).dedup),
            validCases := [] }) := by
  constructor
  · intro h
    unfold inLoopDiversity at h
    by_cases h1 : oraclePass w (s.validCases.take t) ≠ []
    · rw [if_pos h1] at h
      by_cases h2 : (((oraclePass w (s.validCases.take t)).map
          (fun tc => pyStrip tc.output)).dedup).length = 1
      · rw [if_pos h2] at h
        simp at h
      · rw [if_neg h2] at h
        have hs2 : s2 = s := (BodyOutcome.exitLoop.inj h).symm
        have hne : ((oraclePass w (s.validCases.take t)).map
            (fun tc => pyStrip tc.output)).dedup ≠ [] := by
          rw [ne_eq, List.dedup_eq_nil, List.map_eq_nil_iff]
          exact h1
        have hpos : 0 < (((oraclePass w (s.validCases.take t)).map
            (fun tc => pyStrip tc.output)).dedup).length :=
          List.length_pos.mpr hne
        exact ⟨hs2, by omega⟩
    · rw [if_neg h1] at h
      simp at h
  · intro h1 h2
    unfold inLoopDiversity
    rw [if_pos h1, if_pos h2]

/-- Witness for C1: the amended theorem's rejection branch discharged on
the concrete state `cx1DivState` under `cx1World` (two candidates whose
oracle outputs coincide). -/
theorem claim_C1_witness :
    inLoopDiversity cx1World 2 cx1DivState = .next
      { cx1DivState with
          validationErrors := diversityErrorLog
            (oraclePass cx1World (cx1DivState.validCases.take 2))
            (((oraclePass cx1World (cx1DivState.validCases.take 2)).map
              (fun tc => pyStrip tc.output)).dedup),
          validCases := [] } :=
  (claim_C1_diversity_scope cx1World 2 cx1DivState cx1DivState).2
    (by decide) (by decide)

/-- C1 (counterexample): a successful return whose suite has two entries
but a single distinct stripped output.  Every candidate of `cx1World` is
valid, so the loop reaches the target through the `continue` at step 9
and breaks at the top-of-loop target check — bypassing the diversity
enforcement — and the final oracle pass performs no diversity check. -/
theorem claim_C1_counterexample :
    resultOk (generate_test_cases cx1World none 2) = true ∧
    (suiteOf (generate_test_cases cx1World none 2)).length = 2 ∧
    (((suiteOf (generate_test_cases cx1World none 2)).map
      (fun tc => pyStrip tc.output)).dedup).length = 1 := by
  refine ⟨by decide, by decide, by decide⟩

/-!  ## Loop exit with no candidates (C3, C7) -/

/-- A top-of-loop check that fires (budget elapsed or target reached)
leaves the state untouched. -/
theorem runLoop_exit (w : World) (ex : Option (List Example)) (t fuel : Nat)
    (s : LoopState)
    (h : timeoutSeconds ≤ w.elapsedAt s.checkIdx ∨ t ≤ s.validCases.length) :
    runLoop w ex t fuel s = s := by
  cases fuel with
  | zero => rfl
  | succ n =>
    show (if w.elapsedAt s.checkIdx ≥ timeoutSeconds then s else _) = s
    by_cases h1 : w.elapsedAt s.checkIdx ≥ timeoutSeconds
    · rw [if_pos h1]
    · rw [if_neg h1]
      have h2 : s.validCases.length ≥ t := by
        rcases h with h | h
        · exact absurd h h1
        · exact h
      show (if s.validCases.length ≥ t then s else _) = s
      rw [if_pos h2]

/-- C3 (amended): when the wall-clock budget is already exhausted with
zero accumulated valid candidates, `generate_test_cases` raises
`ValueError` ("Nenhum caso de teste válido foi gerado após todas as
iterações") — it does not return an empty suite, and no partial marking
exists. -/
theorem claim_C3_raises_on_empty (w : World) (ex : Option (List Example)) (t : Nat)
    (h : timeoutSeconds ≤ w.elapsedAt 0) :
    generate_test_cases w ex t = .error noValidCasesMsg := by
  have hrun : runSupervisor w ex t = initialState :=
    runLoop_exit w ex t loopFuel initialState (Or.inl h)
  unfold generate_test_cases
  rw [hrun]
  rfl

/-- Witness for C3: the amended theorem discharged on `cx3World`, whose
clock reads 600 s at the first check. -/
theorem claim_C3_witness :
    generate_test_cases cx3World none 5 = .error noValidCasesMsg :=
  claim_C3_raises_on_empty cx3World none 5 (by decide)

/-- C3 (counterexample): on budget exhaustion with zero candidates the
invocation does not return at all — no empty partial suite exists. -/
theorem claim_C3_counterexample :
    resultOk (generate_test_cases cx3World none 7) = false := by
  decide

/-- C7 (amended): with `target_count = 0` the loop breaks at the very
first top-of-loop check without consulting any agent, and the function
then raises `ValueError` instead of returning an empty suite. -/
theorem claim_C7_target_zero (w : World) (ex : Option (List Example)) :
    generate_test_cases w ex 0 = .error noValidCasesMsg ∧
    (runSupervisor w ex 0).trace = [] := by
  have hrun : runSupervisor w ex 0 = initialState :=
    runLoop_exit w ex 0 loopFuel initialState (Or.inr (Nat.zero_le _))
  constructor
  · unfold generate_test_cases
    rw [hrun]
    rfl
  · rw [hrun]
    rfl

/-- C7 (counterexample): at `target_count = 0` the concrete run raises
`ValueError` rather than returning an empty suite. -/
theorem claim_C7_counterexample :
    resultOk (generate_test_cases cx7World none 0) = false := by
  decide

/-!  ## Missing minimal validator (C2) -/

/-- C2: `generate_minimal_validator_code` is not a method of
`ValidatorAgentService` (nor defined anywhere in the repository), so
both supervisor call sites raise `AttributeError`, which the local
handlers swallow; evaluating the loop body at iteration 3 with a
persistently rejected sample shows the loop keeps the revised —
still-rejecting — validator (`V2` compiled to `vexe`) and goes back to
normal revision with one detailed sample diagnostic: the minimal
validator is never adopted. -/
theorem claim_C2_minimal_validator_missing :
    validatorAgentMethods.contains ("generate_minimal_validator_code".data) = false ∧
    minimalCallError ["1 2\n".data] = some ("AttributeError".data) ∧
    bodyValidatorView (iterationBody cx2World cx2Examples 5 cx2State) =
      some (some ("V2".data), some ("vexe".data), 1) := by
  refine ⟨by decide, by decide, by decide⟩

/-!  ## Command validation (C6) -/

theorem mem_insertSorted (x y : Str) (l : List Str) :
    x ∈ insertSorted y l ↔ x = y ∨ x ∈ l := by
  induction l with
  | nil => simp [insertSorted]
  | cons z l ih =>
    unfold insertSorted
    by_cases h : strLe y z = true
    · rw [if_pos h]
      simp
    · rw [if_neg h]
      simp [ih]
      tauto

theorem mem_sortStrs (x : Str) (l : List Str) : x ∈ sortStrs l ↔ x ∈ l := by
  induction l with
  | nil => simp [sortStrs]
  | cons y l ih =>
    unfold sortStrs at ih ⊢
    simp [List.foldr_cons, mem_insertSorted, ih]

theorem digitChar_ne_dash (k : Nat) : ¬ digitChar k = '-' := by
  unfold digitChar
  split <;> decide

theorem mem_natToStrGo (n : Nat) :
    ∀ (acc : Str) (c : Char), c ∈ natToStrGo n acc → (∃ k, c = digitChar k) ∨ c ∈ acc := by
  induction n using Nat.strong_induction_on with
  | _ n ih =>
    intro acc c hc
    unfold natToStrGo at hc
    by_cases h : n < 10
    · rw [dif_pos h] at hc
      rcases List.mem_cons.mp hc with rfl | hmem
      · exact Or.inl ⟨n, rfl⟩
      · exact Or.inr hmem
    · rw [dif_neg h] at hc
      have hlt : n / 10 < n :=
        Nat.div_lt_self (by omega) (by decide)
      rcases ih (n / 10) hlt (digitChar (n % 10) :: acc) c hc with hk | hmem
      · exact Or.inl hk
      · rcases List.mem_cons.mp hmem with rfl | hmem2
        · exact Or.inl ⟨n % 10, rfl⟩
        · exact Or.inr hmem2

theorem natToStr_no_dash (n : Nat) : ∀ c ∈ natToStr n, ¬ c = '-' := by
  intro c hc heq
  rcases mem_natToStrGo n [] c hc with ⟨k, rfl⟩ | h2
  · exact digitChar_ne_dash k heq
  · simp at h2

/-- Unfolding of `joinSpace` on a two-or-more element list. -/
theorem joinSpace_cons_cons (x y : Str) (xs : List Str) :
    joinSpace (x :: y :: xs) = x ++ ' ' :: joinSpace (y :: xs) := rfl

/-- Characters without a dash are skipped in the `outside` state. -/
theorem commandParamsGo_no_dash (pre : Str) :
    ∀ t, (∀ c ∈ pre, ¬ c = '-') →
      commandParamsGo .outside (pre ++ t) = commandParamsGo .outside t := by
  induction pre with
  | nil => intro t _; rfl
  | cons c pre ih =>
    intro t h
    have hc : ¬ c = '-' := h c (List.mem_cons_self _ _)
    rw [List.cons_append]
    show (if c = '-' then _ else commandParamsGo .outside (pre ++ t)) = _
    rw [if_neg hc]
    exact ih t (fun d hd => h d (List.mem_cons_of_mem c hd))

/-- A run of identifier characters extends the capture up to the
following blank. -/
theorem commandParamsGo_capture (rest : Str) :
    ∀ acc t, rest.all isIdentChar = true →
      commandParamsGo (.capturing acc) (rest ++ ' ' :: t) =
        (acc.reverse ++ rest) :: commandParamsGo .outside t := by
  induction rest with
  | nil =>
    intro acc t _
    show (if isIdentChar ' ' then _
      else if ' ' = '-' then _ else acc.reverse :: commandParamsGo .outside t) = _
    rw [if_neg (by decide), if_neg (by decide)]
    simp
  | cons d rest ih =>
    intro acc t hall
    have hd : isIdentChar d = true := by
      have := List.all_eq_true.mp hall d (List.mem_cons_self _ _)
      simpa using this
    have hrest : rest.all isIdentChar = true := by
      rw [List.all_eq_true]
      intro x hx
      exact List.all_eq_true.mp hall x (List.mem_cons_of_mem d hx)
    rw [List.cons_append]
    show (if isIdentChar d then
        commandParamsGo (.capturing (d :: acc)) (rest ++ ' ' :: t) else _) = _
    rw [if_pos hd, ih (d :: acc) t hrest]
    simp

/-- After a dash, an identifier-shaped flag name is captured whole. -/
theorem commandParamsGo_sawDash (p : Str) (t : Str)
    (h : isIdentShapedStr p = true) :
    commandParamsGo .sawDash (p ++ ' ' :: t) =
      p :: commandParamsGo .outside t := by
  cases p with
  | nil => simp [isIdentShapedStr] at h
  | cons c rest =>
    unfold isIdentShapedStr at h
    obtain ⟨hstart, hall⟩ := (Bool.and_eq_true _ _).mp h
    rw [List.cons_append]
    show (if isIdentStart c then
        commandParamsGo (.capturing [c]) (rest ++ ' ' :: t) else _) = _
    rw [if_pos hstart, commandParamsGo_capture rest [c] t hall]
    simp

/-- `"./gen"` contains no dash. -/
theorem gen_prefix_no_dash : ∀ c ∈ ("./gen".data : Str), ¬ c = '-' := by
  decide

/-- Scanning one fallback command recovers exactly its parameter list. -/
theorem fallback_parts_scan (i : Nat) :
    ∀ ps : List Str, (∀ p ∈ ps, isIdentShapedStr p = true) →
      commandParamsGo .outside
        (joinSpace (ps.map (fun p => '-' :: p ++ ' ' :: natToStr (fallbackValue p i)))) =
      ps := by
  intro ps
  induction ps with
  | nil => intro _; rfl
  | cons p ps ih =>
    intro hid
    have hp : isIdentShapedStr p = true := hid p (List.mem_cons_self _ _)
    have hps : ∀ q ∈ ps, isIdentShapedStr q = true :=
      fun q hq => hid q (List.mem_cons_of_mem p hq)
    cases ps with
    | nil =>
      show commandParamsGo .outside ('-' :: (p ++ ' ' :: natToStr (fallbackValue p i))) = [p]
      show (if '-' = '-' then
          commandParamsGo .sawDash (p ++ ' ' :: natToStr (fallbackValue p i)) else _) = _
      rw [if_pos rfl, commandParamsGo_sawDash p _ hp]
      have hskip : commandParamsGo .outside (natToStr (fallbackValue p i)) =
          commandParamsGo .outside ([] : Str) := by
        have := commandParamsGo_no_dash (natToStr (fallbackValue p i)) []
          (natToStr_no_dash (fallbackValue p i))
        simpa using this
      rw [hskip]
      rfl
    | cons q ps2 =>
      have hjoin : joinSpace (((p :: q :: ps2).map
          (fun p => '-' :: p ++ ' ' :: natToStr (fallbackValue p i)))) =
          '-' :: (p ++ ' ' :: (natToStr (fallbackValue p i) ++ ' ' ::
            joinSpace ((q :: ps2).map
              (fun p => '-' :: p ++ ' ' :: natToStr (fallbackValue p i))))) := by
        rw [List.map_cons, List.map_cons, joinSpace_cons_cons]
        simp
      rw [hjoin]
      show (if '-' = '-' then commandParamsGo .sawDash _ else _) = _
      rw [if_pos rfl, commandParamsGo_sawDash p _ hp,
        commandParamsGo_no_dash (natToStr (fallbackValue p i)) _
          (natToStr_no_dash (fallbackValue p i))]
      show p :: (if ' ' = '-' then _ else commandParamsGo .outside _) = _
      rw [if_neg (by decide), ih hps]

/-- The flags of a fallback command are exactly the sorted option names. -/
theorem fallback_commandParams (optParams : List Str) (c : Str) (i : Nat)
    (hid : ∀ p ∈ optParams, isIdentShapedStr p = true)
    (hc : c = joinSpace ("./gen".data ::
      (sortStrs optParams).map (fun p => '-' :: p ++ ' ' :: natToStr (fallbackValue p i)))) :
    commandParams c = sortStrs optParams := by
  subst hc
  unfold commandParams
  have hsortid : ∀ p ∈ sortStrs optParams, isIdentShapedStr p = true :=
    fun p hp => hid p ((mem_sortStrs p optParams).mp hp)
  cases hsp : sortStrs optParams with
  | nil =>
    show commandParamsGo .outside (joinSpace ["./gen".data]) = []
    show commandParamsGo .outside ("./gen".data) = []
    have := commandParamsGo_no_dash ("./gen".data) [] gen_prefix_no_dash
    simpa using this
  | cons p ps =>
    rw [List.map_cons, joinSpace_cons_cons,
      commandParamsGo_no_dash ("./gen".data) _ gen_prefix_no_dash]
    show (if ' ' = '-' then _ else commandParamsGo .outside _) = _
    rw [if_neg (by decide)]
    rw [hsp] at hsortid
    exact fallback_parts_scan i (p :: ps) hsortid

/-- C6 (amended): `_validate_commands` does return only commands whose
flags are all declared — keeping the flag-checked survivors, or the
fallback commands built over the (identifier-shaped) declared options —
but `generate_generator_program` never calls it: the command list it
returns is the raw extraction (see the counterexample). -/
theorem claim_C6_validate_commands (code : Str) (cmds : List Str) (c : Str)
    (hIdent : ∀ p ∈ extract_opt_params code, isIdentShapedStr p = true)
    (hc : c ∈ validate_commands code cmds) :
    ∀ q ∈ commandParams c, q ∈ extract_opt_params code := by
  unfold validate_commands at hc
  by_cases hcase : (cmds.filter (fun cmd =>
      (commandParams cmd).all (fun p => (extract_opt_params code).contains p))) = [] ∧
      extract_opt_params code ≠ []
  · rw [if_pos hcase] at hc
    unfold generate_fallback_commands at hc
    obtain ⟨i, _, hceq⟩ := List.mem_map.mp hc
    intro q hq
    rw [fallback_commandParams (extract_opt_params code) c i hIdent hceq.symm] at hq
    exact (mem_sortStrs q _).mp hq
  · rw [if_neg hcase] at hc
    have hmem := List.mem_filter.mp hc
    intro q hq
    have := List.all_eq_true.mp hmem.2 q hq
    exact List.elem_iff.mp (by simpa using this)

/-- Witness for C6: the amended theorem discharged on the concrete
source `cx6ValidCode` (option `n` declared) and the command
`"./gen -n 7"`, instantiated at the flag `n`. -/
theorem claim_C6_witness : ("n".data : Str) ∈ extract_opt_params cx6ValidCode :=
  claim_C6_validate_commands cx6ValidCode ["./gen -n 7".data] ("./gen -n 7".data)
    (by decide) (by decide) ("n".data) (by decide)

/-- C6 (counterexample): on `cx6Code` — which declares only `n` —
`generate_generator_program`'s command post-processing returns the
extracted command `"./gen -m 5"` unfiltered, although its flag `m` is
not declared; the uncalled `_validate_commands` would have dropped it. -/
theorem claim_C6_counterexample :
    generatorProgramCommands cx6Code = ["./gen -m 5".data] ∧
    commandParams ("./gen -m 5".data) = ["m".data] ∧
    extract_opt_params cx6Code = ["n".data] ∧
    ¬ ("./gen -m 5".data : Str) ∈ validate_commands cx6Code ["./gen -m 5".data] := by
  refine ⟨by decide, by decide, by decide, by decide⟩

end AtalJudge
